import Mathlib

/-!
Shallow embedding of the advisory diff pipeline of this repository
(`bonustask/main.py`, `bonustask/helpers.py`, `bonustask/v2/main.py`),
together with the part of Python's standard-library `difflib` that
`v2/main.py` calls (`difflib.unified_diff`, which itself is built on
`SequenceMatcher` with `isjunk=None` and `autojunk=True`).

Filesystem and git effects (clone, fetch, checkout, walking the working
tree) are abstracted into explicit environments; the control flow of the
Python functions is translated line by line on top of them.  Pure string
manipulation (`str.splitlines`, `str.strip`, `str.replace`, `str.split`,
substring tests) is embedded directly.
-/

/-! ### Python string primitives -/

/-- The characters Python's `str.splitlines` treats as line boundaries
(`\n`, `\r`, `\v`, `\f`, FS, GS, RS, NEL, LINE SEPARATOR, PARAGRAPH
SEPARATOR; `\r\n` counts as a single boundary). -/
def pyLineBreak (c : Char) : Bool :=
  c = '\n' || c = '\r' || c = Char.ofNat 0x0b || c = Char.ofNat 0x0c ||
  c = Char.ofNat 0x1c || c = Char.ofNat 0x1d || c = Char.ofNat 0x1e ||
  c = Char.ofNat 0x85 || c = Char.ofNat 0x2028 || c = Char.ofNat 0x2029

/-- Worker for `pySplitlines`: `acc` is the current (reversed) line. -/
def pySplitlinesAux : List Char → List Char → List String
  | [], acc => if acc.isEmpty then [] else [String.mk acc.reverse]
  | '\r' :: '\n' :: rest, acc => String.mk acc.reverse :: pySplitlinesAux rest []
  | c :: rest, acc =>
      if pyLineBreak c then String.mk acc.reverse :: pySplitlinesAux rest []
      else pySplitlinesAux rest (c :: acc)

/-- Python `str.splitlines()` (with `keepends=False`, the default). -/
def pySplitlines (s : String) : List String := pySplitlinesAux s.toList []

/-- The characters Python's `str.strip()` removes (Unicode whitespace,
as recognised by `str.isspace`). -/
def pySpace (c : Char) : Bool :=
  c = ' ' || c = '\t' || c = '\n' || c = '\r' || c = Char.ofNat 0x0b ||
  c = Char.ofNat 0x0c || c = Char.ofNat 0x1c || c = Char.ofNat 0x1d ||
  c = Char.ofNat 0x1e || c = Char.ofNat 0x1f || c = Char.ofNat 0x85 ||
  c = Char.ofNat 0xa0 || c = Char.ofNat 0x1680 ||
  (Char.ofNat 0x2000 ≤ c && c ≤ Char.ofNat 0x200a) ||
  c = Char.ofNat 0x2028 || c = Char.ofNat 0x2029 || c = Char.ofNat 0x202f ||
  c = Char.ofNat 0x205f || c = Char.ofNat 0x3000

/-- Python `str.strip()` with no argument. -/
def pyStrip (s : String) : String :=
  String.mk (((s.toList.dropWhile pySpace).reverse.dropWhile pySpace).reverse)

/-- Python `s.replace('/', '__')` (single-character pattern, so the
left-to-right non-overlapping scan is a per-character map). -/
def pyReplaceSlash (s : String) : String :=
  String.mk (s.toList.flatMap fun c => if c = '/' then ['_', '_'] else [c])

/-- Python `s.rstrip("/")`. -/
def pyRstripSlash (s : String) : String :=
  String.mk (s.toList.reverse.dropWhile (fun c => c = '/')).reverse

/-- Worker for `pySplitSlash`. -/
def pySplitSlashAux : List Char → List Char → List String
  | [], acc => [String.mk acc.reverse]
  | c :: rest, acc =>
      if c = '/' then String.mk acc.reverse :: pySplitSlashAux rest []
      else pySplitSlashAux rest (c :: acc)

/-- Python `s.split("/")`; always returns a non-empty list. -/
def pySplitSlash (s : String) : List String := pySplitSlashAux s.toList []

/-- Python `s.split("/")[-1]`. -/
def lastSegment (s : String) : String := (pySplitSlash s).getLastD ""

/-- Does `hay` start with `needle` (on character lists)? -/
def strStartsWithL : List Char → List Char → Bool
  | [], _ => true
  | _ :: _, [] => false
  | a :: as, b :: bs => a = b && strStartsWithL as bs

/-- Does the character list contain `needle` as a contiguous run? -/
def strContainsL (needle : List Char) : List Char → Bool
  | [] => needle.isEmpty
  | c :: rest => strStartsWithL needle (c :: rest) || strContainsL needle rest

/-- Python `needle in hay` for strings. -/
def pyContains (hay needle : String) : Bool := strContainsL needle.toList hay.toList

/-- Python `str(x)` applied to an optional string (`str(None) = "None"`),
as performed by f-string interpolation in `v2/main.py`. -/
def optStr : Option String → String
  | none => "None"
  | some s => s

/-- Python falsiness of an optional string: `None` and `""` are falsy. -/
def optFalsy : Option String → Bool
  | none => true
  | some s => s = ""

/-! ### `difflib` (the slice used by `generate_unified_diff`)

`difflib.unified_diff(a, b, fromfile, tofile, lineterm="")` constructs
`SequenceMatcher(None, a, b)`; since `isjunk` is `None`, the junk set
`bjunk` is empty, so the junk-extension loops of `find_longest_match`
are identity and are omitted below; `autojunk=True` purges "popular"
elements (when `len(b) >= 200`) from `b2j`, which is embedded.  The
worklist of `get_matching_blocks` and the generators are rendered as
structural/fuelled recursion producing the same (sorted) lists. -/

/-- Indices `j` with `b[j] = x` (the `b2j` lists before the autojunk
purge), in increasing order. -/
def positionsOf (b : List String) (x : String) : List Nat :=
  (List.range b.length).filter fun j => decide (b.get? j = some x)

/-- The `autojunk` popularity test of `SequenceMatcher.__chain_b`:
an element is purged when `len(b) >= 200` and it occurs more than
`len(b) // 100 + 1` times. -/
def isPopular (b : List String) (x : String) : Bool :=
  decide (200 ≤ b.length) && decide (b.length / 100 + 1 < (positionsOf b x).length)

/-- `self.b2j.get(x, [])` after the autojunk purge. -/
def b2j (b : List String) (x : String) : List Nat :=
  if isPopular b x then [] else positionsOf b x

/-- The `j` positions scanned for `a[i]` at step `i` of
`find_longest_match` (the `continue`/`break` on `blo`/`bhi` filter the
increasing `b2j` list). -/
def jsAt (a b : List String) (blo bhi i : Nat) : List Nat :=
  (b2j b (a.getD i "")).filter fun j => decide (blo ≤ j) && decide (j < bhi)

/-- One step `i` of the dictionary loop of `find_longest_match`:
fold the candidate `j` positions, updating `(besti, bestj, bestsize)`.
`j2len` is the previous row of the chain-length table (the Python dict,
missing keys read as `0`; `j2len.get(j-1, 0)` at `j = 0` reads the
missing key `-1`). -/
def flmInner (i : Nat) (j2len : Nat → Nat) : List Nat → Nat × Nat × Nat → Nat × Nat × Nat
  | [], best => best
  | j :: js, best =>
      flmInner i j2len js
        (if best.2.2 < (if j = 0 then 0 else j2len (j - 1)) + 1 then
          (i + 1 - ((if j = 0 then 0 else j2len (j - 1)) + 1),
           j + 1 - ((if j = 0 then 0 else j2len (j - 1)) + 1),
           (if j = 0 then 0 else j2len (j - 1)) + 1)
        else best)

/-- The new `j2len` row built during step `i` (`newj2len[j] = j2len.get(j-1,0)+1`
for scanned `j`, other keys absent, i.e. `0`). -/
def newJ (a b : List String) (blo bhi i : Nat) (j2len : Nat → Nat) : Nat → Nat :=
  fun j => if j ∈ jsAt a b blo bhi i then (if j = 0 then 0 else j2len (j - 1)) + 1 else 0

/-- The outer `for i in range(alo, ahi)` loop of `find_longest_match`. -/
def flmOuter (a b : List String) (blo bhi : Nat) :
    List Nat → (Nat → Nat) → Nat × Nat × Nat → Nat × Nat × Nat
  | [], _, best => best
  | i :: is, j2len, best =>
      flmOuter a b blo bhi is (newJ a b blo bhi i j2len)
        (flmInner i j2len (jsAt a b blo bhi i) best)

/-- The leftward extension loop of `find_longest_match` (`bjunk` is
empty, so `isbjunk` is constantly false).  The fuel bounds the number
of iterations; each iteration decrements `besti`, so fuel `besti`
reproduces the `while` loop exactly. -/
def extendLeft (a b : List String) (alo blo : Nat) : Nat → Nat × Nat × Nat → Nat × Nat × Nat
  | 0, best => best
  | fuel + 1, best =>
      if alo < best.1 ∧ blo < best.2.1 ∧
         a.getD (best.1 - 1) "" = b.getD (best.2.1 - 1) "" then
        extendLeft a b alo blo fuel (best.1 - 1, best.2.1 - 1, best.2.2 + 1)
      else best

/-- The rightward extension loop; each iteration increments `bestsize`,
so fuel `ahi` reproduces the `while` loop exactly. -/
def extendRight (a b : List String) (ahi bhi : Nat) : Nat → Nat × Nat × Nat → Nat × Nat × Nat
  | 0, best => best
  | fuel + 1, best =>
      if best.1 + best.2.2 < ahi ∧ best.2.1 + best.2.2 < bhi ∧
         a.getD (best.1 + best.2.2) "" = b.getD (best.2.1 + best.2.2) "" then
        extendRight a b ahi bhi fuel (best.1, best.2.1, best.2.2 + 1)
      else best

/-- `SequenceMatcher.find_longest_match(alo, ahi, blo, bhi)` with
`isjunk=None`: dictionary loop, then the two non-junk extension loops. -/
def find_longest_match (a b : List String) (alo ahi blo bhi : Nat) : Nat × Nat × Nat :=
  extendRight a b ahi bhi ahi
    (extendLeft a b alo blo
      (flmOuter a b blo bhi (List.range' alo (ahi - alo)) (fun _ => 0) (alo, blo, 0)).1
      (flmOuter a b blo bhi (List.range' alo (ahi - alo)) (fun _ => 0) (alo, blo, 0)))

/-- The worklist of `get_matching_blocks`, rendered as interval
recursion; sub-blocks of the left interval sort before the middle block,
which sorts before the right interval's, so this produces the sorted
block list directly.  Each recursive call shrinks the `a`-interval by at
least the match size (at least 1), so fuel `a.length + b.length + 1`
always suffices. -/
def matchingBlocksAux (a b : List String) : Nat → Nat → Nat → Nat → Nat → List (Nat × Nat × Nat)
  | 0, _, _, _, _ => []
  | fuel + 1, alo, ahi, blo, bhi =>
      if (find_longest_match a b alo ahi blo bhi).2.2 = 0 then []
      else
        matchingBlocksAux a b fuel alo (find_longest_match a b alo ahi blo bhi).1 blo
            (find_longest_match a b alo ahi blo bhi).2.1 ++
          find_longest_match a b alo ahi blo bhi ::
            matchingBlocksAux a b fuel
              ((find_longest_match a b alo ahi blo bhi).1 +
                (find_longest_match a b alo ahi blo bhi).2.2)
              ahi
              ((find_longest_match a b alo ahi blo bhi).2.1 +
                (find_longest_match a b alo ahi blo bhi).2.2)
              bhi

/-- The adjacent-block collapsing pass of `get_matching_blocks`
(`i1, j1, k1` start at `0, 0, 0`; a block adjacent to the accumulator is
merged, otherwise the accumulator is emitted if non-trivial). -/
def collapseAux : Nat × Nat × Nat → List (Nat × Nat × Nat) → List (Nat × Nat × Nat)
  | acc, [] => if acc.2.2 = 0 then [] else [acc]
  | acc, blk :: rest =>
      if acc.1 + acc.2.2 = blk.1 ∧ acc.2.1 + acc.2.2 = blk.2.1 then
        collapseAux (acc.1, acc.2.1, acc.2.2 + blk.2.2) rest
      else (if acc.2.2 = 0 then [] else [acc]) ++ collapseAux blk rest

/-- `SequenceMatcher.get_matching_blocks()`, including the final
`(la, lb, 0)` sentinel. -/
def get_matching_blocks (a b : List String) : List (Nat × Nat × Nat) :=
  collapseAux (0, 0, 0)
      (matchingBlocksAux a b (a.length + b.length + 1) 0 a.length 0 b.length) ++
    [(a.length, b.length, 0)]

/-- The four opcode tags of `SequenceMatcher.get_opcodes()`. -/
inductive DTag
  | equal
  | replace
  | delete
  | insert
deriving DecidableEq

/-- One opcode `(tag, i1, i2, j1, j2)`. -/
structure Opcode where
  tag : DTag
  i1 : Nat
  i2 : Nat
  j1 : Nat
  j2 : Nat
deriving DecidableEq

/-- The loop of `get_opcodes` over the matching blocks. -/
def opcodesAux : Nat → Nat → List (Nat × Nat × Nat) → List Opcode
  | _, _, [] => []
  | i, j, blk :: rest =>
      (if i < blk.1 ∧ j < blk.2.1 then [⟨DTag.replace, i, blk.1, j, blk.2.1⟩]
       else if i < blk.1 then [⟨DTag.delete, i, blk.1, j, blk.2.1⟩]
       else if j < blk.2.1 then [⟨DTag.insert, i, blk.1, j, blk.2.1⟩]
       else []) ++
      (if blk.2.2 = 0 then []
       else [⟨DTag.equal, blk.1, blk.1 + blk.2.2, blk.2.1, blk.2.1 + blk.2.2⟩]) ++
      opcodesAux (blk.1 + blk.2.2) (blk.2.1 + blk.2.2) rest

/-- `SequenceMatcher.get_opcodes()`. -/
def get_opcodes (a b : List String) : List Opcode := opcodesAux 0 0 (get_matching_blocks a b)

/-- `get_grouped_opcodes`: trim a leading `equal` opcode to context
size `n = 3`. -/
def adjustHead : List Opcode → List Opcode
  | [] => []
  | c :: rest =>
      if c.tag = DTag.equal then
        ⟨c.tag, max c.i1 (c.i2 - 3), c.i2, max c.j1 (c.j2 - 3), c.j2⟩ :: rest
      else c :: rest

/-- `get_grouped_opcodes`: trim a trailing `equal` opcode to context
size `n = 3`. -/
def adjustTail : List Opcode → List Opcode
  | [] => []
  | [c] =>
      if c.tag = DTag.equal then
        [⟨c.tag, c.i1, min c.i2 (c.i1 + 3), c.j1, min c.j2 (c.j1 + 3)⟩]
      else [c]
  | c :: rest => c :: adjustTail rest

/-- The grouping loop of `get_grouped_opcodes` (with `n = 3`, `nn = 6`):
a large `equal` range closes the current group; a final group consisting
of a single `equal` opcode is suppressed. -/
def groupLoop : List Opcode → List Opcode → List (List Opcode)
  | [], group =>
      match group with
      | [] => []
      | [⟨DTag.equal, _, _, _, _⟩] => []
      | _ => [group]
  | c :: rest, group =>
      if c.tag = DTag.equal ∧ 6 < c.i2 - c.i1 then
        (group ++ [⟨c.tag, c.i1, min c.i2 (c.i1 + 3), c.j1, min c.j2 (c.j1 + 3)⟩]) ::
          groupLoop rest [⟨c.tag, max c.i1 (c.i2 - 3), c.i2, max c.j1 (c.j2 - 3), c.j2⟩]
      else groupLoop rest (group ++ [c])

/-- `SequenceMatcher.get_grouped_opcodes(3)`. -/
def get_grouped_opcodes (a b : List String) : List (List Opcode) :=
  groupLoop
    (adjustTail (adjustHead
      (if get_opcodes a b = [] then [⟨DTag.equal, 0, 1, 0, 1⟩] else get_opcodes a b)))
    []

/-- `difflib._format_range_unified(start, stop)`. -/
def formatRangeUnified (start stop : Nat) : String :=
  if stop - start = 1 then toString (start + 1)
  else if stop - start = 0 then toString start ++ ",0"
  else toString (start + 1) ++ "," ++ toString (stop - start)

/-- `a[i1:i2]` with each element prefixed (the per-line output of
`unified_diff`; `lineterm=""` so nothing is appended). -/
def sliceMap (pre : String) (xs : List String) (lo hi : Nat) : List String :=
  ((xs.drop lo).take (hi - lo)).map fun s => pre ++ s

/-- The lines `unified_diff` yields for one opcode of a group. -/
def opcodeLines (a b : List String) (c : Opcode) : List String :=
  match c.tag with
  | DTag.equal => sliceMap " " a c.i1 c.i2
  | DTag.replace => sliceMap "-" a c.i1 c.i2 ++ sliceMap "+" b c.j1 c.j2
  | DTag.delete => sliceMap "-" a c.i1 c.i2
  | DTag.insert => sliceMap "+" b c.j1 c.j2

/-- The lines `unified_diff` yields for one group: the `@@` hunk header,
then the per-opcode lines. -/
def groupToLines (a b : List String) (group : List Opcode) : List String :=
  match group with
  | [] => []
  | first :: _ =>
      ("@@ -" ++ formatRangeUnified first.i1 (group.getLastD first).i2 ++
       " +" ++ formatRangeUnified first.j1 (group.getLastD first).j2 ++ " @@") ::
      group.flatMap (opcodeLines a b)

/-- `difflib.unified_diff(a, b, fromfile, tofile, lineterm="")` as the
list of yielded lines (the `---`/`+++` headers are yielded once, before
the first group, so not at all when there is no group). -/
def unified_diff (a b : List String) (fromfile tofile : String) : List String :=
  match get_grouped_opcodes a b with
  | [] => []
  | g :: gs =>
      ("--- " ++ fromfile) :: ("+++ " ++ tofile) ::
        (g :: gs).flatMap (groupToLines a b)

/-- `generate_unified_diff(old_text, new_text, file_path)` of
`v2/main.py` (lines 65-78): returns `""` when either text is `None`,
otherwise joins the `difflib.unified_diff` lines with `"\n"`. -/
def generate_unified_diff (old_text new_text : Option String) (file_path : String) : String :=
  match old_text, new_text with
  | some o, some n =>
      String.intercalate "\n"
        (unified_diff (pySplitlines o) (pySplitlines n)
          (file_path ++ " (old)") (file_path ++ " (new)"))
  | _, _ => ""

/-! ### The JSON pipeline (`bonustask/v2/main.py`)

Git and filesystem effects are abstracted into a `WorldV2` environment:
whether a destination exists and holds a `.git` directory, whether
`Repo.clone_from` / `remote().fetch()` / `git.checkout(ref)` succeed,
and what walking the working tree at a given checked-out ref yields
(the `os.walk` loop restricted to the `.py/.js/.ts/.html/.php`
extensions, each file loaded with `load_file_safe`, which returns `None`
on a read error — hence `Option String` values). -/

/-- The mutable state of one repository working copy: its destination
path, the ref its working tree currently reflects, and whether a fetch
has succeeded on it. -/
structure RepoStV2 where
  dest : String
  current : String
  fetched : Bool
deriving DecidableEq

/-- The abstracted git/filesystem environment of the JSON pipeline. -/
structure WorldV2 where
  /-- `os.path.exists(dest)`. -/
  destExists : String → Bool
  /-- `(Path(dest) / ".git").exists()`. -/
  destGitDir : String → Bool
  /-- does `Repo.clone_from(repo_url, dest)` succeed? -/
  cloneOk : String → String → Bool
  /-- does `repo.remote().fetch()` succeed at this destination? -/
  fetchOk : String → Bool
  /-- does `repo.git.checkout(ref)` succeed, given the destination,
  the ref, and whether a fetch has succeeded? -/
  checkoutRefOk : String → String → Bool → Bool
  /-- the ref the working tree reflects right after clone/open. -/
  initRef : String → String
  /-- the snapshot `os.walk` + extension filter + `load_file_safe`
  yields: destination → checked-out ref → (relative path, content). -/
  treeAt : String → String → List (String × Option String)

/-- `clone_or_fetch(repo_url, dest)` of `v2/main.py` (lines 26-36),
instrumented with the number of `Repo.clone_from` calls and of fetch
attempts: an existing checkout is opened and fetched (a fetch failure is
swallowed by `except Exception: pass`), otherwise a clone is attempted;
a clone failure propagates (`Except.error`). -/
def clone_or_fetch (w : WorldV2) (repo_url dest : String) :
    Except String RepoStV2 × Nat × Nat :=
  if w.destExists dest && w.destGitDir dest then
    (Except.ok { dest := dest, current := w.initRef dest, fetched := w.fetchOk dest }, 0, 1)
  else if w.cloneOk repo_url dest then
    (Except.ok { dest := dest, current := w.initRef dest, fetched := false }, 1, 0)
  else (Except.error repo_url, 1, 0)

/-- `ensure_repo_cloned(repo_url, dest)` of `helpers.py` (lines 24-33):
same structure as `clone_or_fetch` (its fetch passes `tags=True`, which
the abstraction does not distinguish). -/
def ensure_repo_cloned (w : WorldV2) (repo_url dest : String) :
    Except String RepoStV2 × Nat × Nat :=
  if w.destExists dest && w.destGitDir dest then
    (Except.ok { dest := dest, current := w.initRef dest, fetched := w.fetchOk dest }, 0, 1)
  else if w.cloneOk repo_url dest then
    (Except.ok { dest := dest, current := w.initRef dest, fetched := false }, 1, 0)
  else (Except.error repo_url, 1, 0)

/-- `checkout(repo, ref)` of `v2/main.py` (lines 39-52), instrumented
with `(result, state, fetch attempts, checkout attempts)`: a falsy ref
returns `False` at once; on a first checkout failure one fetch is
attempted and, only if the fetch succeeds, the checkout is retried once;
every exception of the retry block (including a fetch failure) yields
`False`. -/
def checkout (w : WorldV2) (st : RepoStV2) (ref : Option String) :
    Bool × RepoStV2 × Nat × Nat :=
  match ref with
  | none => (false, st, 0, 0)
  | some r =>
      if r = "" then (false, st, 0, 0)
      else if w.checkoutRefOk st.dest r st.fetched then
        (true, { st with current := r }, 0, 1)
      else if w.fetchOk st.dest then
        (if w.checkoutRefOk st.dest r true then
          (true, { st with current := r, fetched := true }, 1, 2)
        else (false, { st with fetched := true }, 1, 2))
      else (false, st, 1, 1)

/-- `checkout_ref(repo, ref)` of `helpers.py` (lines 36-44): on a first
checkout failure it fetches and retries, but neither the fetch failure
nor the retry failure is caught — both propagate to the caller
(`Except.error`). -/
def checkout_ref (w : WorldV2) (st : RepoStV2) (ref : String) :
    Except Unit RepoStV2 × Nat × Nat :=
  if w.checkoutRefOk st.dest ref st.fetched then
    (Except.ok { st with current := ref }, 0, 1)
  else if w.fetchOk st.dest then
    (if w.checkoutRefOk st.dest ref true then
      (Except.ok { st with current := ref, fetched := true }, 1, 2)
    else (Except.error (), 1, 2))
  else (Except.error (), 1, 1)

/-- `safe_get_commit_urls(refs)` of `v2/main.py` (lines 19-23). -/
def safe_get_commit_urls (refs : List String) : List String :=
  refs.filter fun r => pyContains r "/commit/"

/-- One `vulnerabilities` sub-record of an advisory. -/
structure VulnEntry where
  vulnerable_version_range : Option String
  first_patched_version : Option String
deriving DecidableEq

/-- One advisory record of the JSON input (the fields `process_json`
reads; `Option` is a field that may be absent or `null`). -/
structure AdvisoryV2 where
  ghsa_id : Option String
  source_code_location : Option String
  description : Option String
  references : List String
  vulnerabilities : List VulnEntry
deriving DecidableEq

/-- The per-file diff loop of `process_json` (lines 178-188): iterate
over the paths of the old snapshot; `old_text` is the stored value,
`new_text` is `new_snapshot.get(path)` (absent key and stored `None`
both read as `None`, i.e. `Option.join` of the association lookup); the
diff is persisted only when `diff_text.strip()` is truthy.  Returned as
the list of `(path, diff text)` pairs persisted. -/
def diffEntries : List (String × Option String) → List (String × Option String) →
    List (String × String)
  | [], _ => []
  | pr :: rest, newS =>
      if pyStrip (generate_unified_diff pr.2 (Option.join (newS.lookup pr.1)) pr.1) = "" then
        diffEntries rest newS
      else
        (pr.1, generate_unified_diff pr.2 (Option.join (newS.lookup pr.1)) pr.1) ::
          diffEntries rest newS

/-- The artifact filename scheme of `process_json` (line 185):
`f"{file_path.replace('/', '__')}.diff"`. -/
def diff_artifact_name (file_path : String) : String := pyReplaceSlash file_path ++ ".diff"

/-- The GumTree artifact naming of `process_advisories`
(`main.py` lines 130-131): `fp.replace('/', '__') + ".json"`. -/
def gumtree_artifact_name (file_path : String) : String := pyReplaceSlash file_path ++ ".json"

/-- The full artifact path `diffs_dir / name`. -/
def diffFileName (diffs_dir p : String) : String :=
  diffs_dir ++ "/" ++ diff_artifact_name p

/-- The console messages `process_json` prints per advisory. -/
inductive LogV2
  | skipNoUrl (ghsa : Option String)
  | errorClone (repo_url : String)
  | warnOldCheckout (r : Option String)
  | warnNewCheckout (r : Option String)
deriving DecidableEq

/-- One result row appended to `results` (lines 221-230). -/
structure RowV2 where
  ghsa_id : Option String
  repo_url : String
  commit_old : Option String
  commit_new : Option String
  vulnerable_range : Option String
  patched_version : Option String
  diff_files : List String
  prompts_dir : String
deriving DecidableEq

/-- Everything one advisory iteration of `process_json` produces. -/
structure AdvOutcome where
  logs : List LogV2
  row : Option RowV2
  diffFiles : List (String × String)
  promptFiles : List String
deriving DecidableEq

/-- The workspace path `output_root / f"{ghsa}_{repo_name}"` of
`process_json` (lines 114-115). -/
def advisoryDest (output_root : String) (a : AdvisoryV2) : String :=
  output_root ++ "/" ++ optStr a.ghsa_id ++ "_" ++
    lastSegment (pyRstripSlash (optStr a.source_code_location))

/-- One iteration of the advisory loop of `process_json`
(`v2/main.py` lines 91-230): skip on a falsy repo URL; clone or fetch
(a failure is logged and the advisory skipped); derive the old/new refs
from commit URLs with version-range fallbacks; check out and snapshot
twice; generate and persist the per-file diffs; write the two prompt
files; append the result row.  Only `repo_dir` renders the identifier
through an f-string (line 115): when `ghsa_id` is `None`, the
expression `output_root / "diffs" / ghsa` at line 173 raises an
uncaught `TypeError` (`Path / None`) — modelled as `Except.error ()` —
after the checkouts and snapshots but before any diff artifact, prompt
file or result row, and it propagates out of the advisory loop. -/
def process_one (w : WorldV2) (output_root : String) (a : AdvisoryV2) :
    Except Unit AdvOutcome :=
  if optFalsy a.source_code_location then
    Except.ok
      { logs := [LogV2.skipNoUrl a.ghsa_id], row := none,
        diffFiles := [], promptFiles := [] }
  else
    match (clone_or_fetch w (optStr a.source_code_location) (advisoryDest output_root a)).1 with
    | Except.error _ =>
        Except.ok
          { logs := [LogV2.errorClone (optStr a.source_code_location)],
            row := none, diffFiles := [], promptFiles := [] }
    | Except.ok st0 =>
        let commit_urls := safe_get_commit_urls a.references
        let vuln_old :=
          Option.join ((a.vulnerabilities.map fun v => v.vulnerable_version_range).head?)
        let patched_new :=
          Option.join ((a.vulnerabilities.map fun v => v.first_patched_version).head?)
        let commit_old :=
          if optFalsy ((commit_urls.get? 1).map lastSegment) then vuln_old
          else (commit_urls.get? 1).map lastSegment
        let commit_new :=
          if optFalsy ((commit_urls.get? 0).map lastSegment) then patched_new
          else (commit_urls.get? 0).map lastSegment
        let r1 := checkout w st0 commit_old
        let old_snapshot := w.treeAt (advisoryDest output_root a) r1.2.1.current
        let r2 := checkout w r1.2.1 commit_new
        let new_snapshot := w.treeAt (advisoryDest output_root a) r2.2.1.current
        match a.ghsa_id with
        | none => Except.error ()
        | some g =>
            let entries := diffEntries old_snapshot new_snapshot
            let diffs_dir := output_root ++ "/diffs/" ++ g
            let prompts_dir := output_root ++ "/prompts/" ++ g
            Except.ok
              { logs :=
                  (if r1.1 then [] else [LogV2.warnOldCheckout commit_old]) ++
                  (if r2.1 then [] else [LogV2.warnNewCheckout commit_new]),
                row := some
                  { ghsa_id := a.ghsa_id,
                    repo_url := optStr a.source_code_location,
                    commit_old := commit_old,
                    commit_new := commit_new,
                    vulnerable_range := vuln_old,
                    patched_version := patched_new,
                    diff_files := entries.map fun e => diffFileName diffs_dir e.1,
                    prompts_dir := prompts_dir },
                diffFiles := entries.map fun e => (diffFileName diffs_dir e.1, e.2),
                promptFiles := [prompts_dir ++ "/localization_prompt.txt",
                                prompts_dir ++ "/fix_check_prompt.txt"] }

/-- The advisory loop of `process_json`: strictly sequential, one
outcome per input record; caught per-advisory failures (clone errors,
checkout failures) do not affect the other records, but the uncaught
`TypeError` of a missing identifier propagates and aborts the loop. -/
def process_json (w : WorldV2) (output_root : String) :
    List AdvisoryV2 → Except Unit (List AdvOutcome)
  | [] => Except.ok []
  | a :: rest =>
      (process_one w output_root a).bind fun o =>
        (process_json w output_root rest).map fun os => o :: os

/-- The rows of the final `patched_dataset.csv` (written only when the
loop finishes without an uncaught exception). -/
def resultRows (w : WorldV2) (output_root : String) (advisories : List AdvisoryV2) :
    Except Unit (List RowV2) :=
  (process_json w output_root advisories).map fun os => os.filterMap fun o => o.row

/-- The `__main__` entry of `v2/main.py` (lines 241-249): fewer than 3
`argv` entries exit with status 1; `process_json` running to completion
exits normally with status 0; an exception propagating out of the loop
(the `Path / None` `TypeError`) makes the interpreter exit with a
non-zero status. -/
def run_v2 (w : WorldV2) (args : List String) (advisories : List AdvisoryV2) :
    Except Unit (List AdvOutcome) × Nat :=
  if args.length < 3 then (Except.ok [], 1)
  else
    match process_json w (args.getD 2 "") advisories with
    | Except.ok os => (Except.ok os, 0)
    | Except.error e => (Except.error e, 1)

/-! ### The CSV pipeline (`bonustask/main.py` + `bonustask/helpers.py`) -/

/-- The abstracted git/filesystem environment of the CSV pipeline. -/
structure WorldCSV where
  /-- does `repo.git.checkout(ref)` succeed? -/
  checkoutOk : String → Bool
  /-- does the file exist in the working tree at the checked-out ref? -/
  fileExists : String → String → Bool
  /-- `abs.stat().st_size` at the checked-out ref. -/
  fileSize : String → String → Nat
  /-- `repo.git.diff('--name-only', f'{old}..{new}')`: raw output, or
  any raised exception. -/
  gitDiffNameOnly : String → String → Except String String

/-- `list_changed_files(repo, old_ref, new_ref)` of `helpers.py`
(lines 47-53): any exception of the underlying `git diff --name-only`
is converted to `[]`; otherwise the output is split into lines and
empty lines dropped. -/
def list_changed_files (w : WorldCSV) (old_ref new_ref : String) : List String :=
  match w.gitDiffNameOnly old_ref new_ref with
  | Except.error _ => []
  | Except.ok out => (pySplitlines out).filter fun p => p ≠ ""

/-- The changed-file selection of `process_advisories`
(`main.py` lines 103-105): the `vuln_old..patched_new` list, falling
back to `patched_old..patched_new` when it is empty. -/
def changed_files_for (w : WorldCSV) (vuln_old patched_old patched_new : String) :
    List String :=
  if list_changed_files w vuln_old patched_new = [] then
    list_changed_files w patched_old patched_new
  else list_changed_files w vuln_old patched_new

namespace SelfDiff

/-- Length of the maximal run of non-popular elements of `L` ending at
index `i`. -/
def runLen (L : List String) : Nat → Nat
  | 0 => if isPopular L (L.getD 0 "") then 0 else 1
  | i + 1 => if isPopular L (L.getD (i + 1) "") then 0 else runLen L i + 1

/-- Running maximum of `runLen` over indices below `i`. -/
def maxRun (L : List String) : Nat → Nat
  | 0 => 0
  | i + 1 => max (maxRun L i) (runLen L i)

end SelfDiff

/-- Inverse of the `'/' → "__"` encoding: reads back `"__"` as `'/'`. -/
def decodeName : List Char → List Char
  | [] => []
  | '_' :: '_' :: rest => '/' :: decodeName rest
  | c :: rest => c :: decodeName rest

/-- Does the clone step of `process_json` fail for this record: no
existing checkout at the derived destination and `Repo.clone_from`
raises. -/
def clone_fails_for (w : WorldV2) (output_root : String) (a : AdvisoryV2) : Prop :=
  (w.destExists (advisoryDest output_root a) &&
    w.destGitDir (advisoryDest output_root a)) = false ∧
  w.cloneOk (optStr a.source_code_location) (advisoryDest output_root a) = false

/-- Does the clone step of `process_json` produce a repository for this
record. -/
def clone_ok_for (w : WorldV2) (output_root : String) (a : AdvisoryV2) : Prop :=
  ∃ st, (clone_or_fetch w (optStr a.source_code_location)
    (advisoryDest output_root a)).1 = Except.ok st

/-- Test environment: fresh destination, clone succeeds, everything
else succeeds, empty working trees. -/
def wAllOk : WorldV2 :=
  { destExists := fun _ => false, destGitDir := fun _ => false,
    cloneOk := fun _ _ => true, fetchOk := fun _ => true,
    checkoutRefOk := fun _ _ _ => true, initRef := fun _ => "HEAD",
    treeAt := fun _ _ => [] }

/-- Test environment: fresh destination and `Repo.clone_from` fails. -/
def wCloneFails : WorldV2 :=
  { destExists := fun _ => false, destGitDir := fun _ => false,
    cloneOk := fun _ _ => false, fetchOk := fun _ => false,
    checkoutRefOk := fun _ _ _ => false, initRef := fun _ => "HEAD",
    treeAt := fun _ _ => [] }

/-- Test environment: destination already holds a checkout. -/
def wHasGit : WorldV2 :=
  { destExists := fun _ => true, destGitDir := fun _ => true,
    cloneOk := fun _ _ => false, fetchOk := fun _ => false,
    checkoutRefOk := fun _ _ _ => false, initRef := fun _ => "HEAD",
    treeAt := fun _ _ => [] }

/-- Test environment: checkout fails before a fetch, the fetch itself
fails too. -/
def wFetchFails : WorldV2 :=
  { destExists := fun _ => false, destGitDir := fun _ => false,
    cloneOk := fun _ _ => true, fetchOk := fun _ => false,
    checkoutRefOk := fun _ _ _ => false, initRef := fun _ => "HEAD",
    treeAt := fun _ _ => [] }

/-- Test environment: checkout succeeds only after a successful fetch. -/
def wRetryOk : WorldV2 :=
  { destExists := fun _ => false, destGitDir := fun _ => false,
    cloneOk := fun _ _ => true, fetchOk := fun _ => true,
    checkoutRefOk := fun _ _ fetched => fetched, initRef := fun _ => "HEAD",
    treeAt := fun _ _ => [] }

/-- A well-formed advisory record. -/
def advOk : AdvisoryV2 :=
  { ghsa_id := some "GHSA-1", source_code_location := some "https://h/r",
    description := none, references := [], vulnerabilities := [] }

/-- An advisory record with no identifier but a repository URL. -/
def advNoId : AdvisoryV2 :=
  { ghsa_id := none, source_code_location := some "https://h/r",
    description := none, references := [], vulnerabilities := [] }

/-- An advisory record with no repository URL. -/
def advNoUrl : AdvisoryV2 :=
  { ghsa_id := some "GHSA-2", source_code_location := none,
    description := none, references := [], vulnerabilities := [] }

/-- Test environment for the CSV pipeline: checkout succeeds, the file
is absent, every file is over the size ceiling, `git diff` raises. -/
def wCSVTest : WorldCSV :=
  { checkoutOk := fun _ => true, fileExists := fun _ _ => false,
    fileSize := fun _ _ => 3000000,
    gitDiffNameOnly := fun _ _ => Except.error "boom" }

/-! ### The diff of a sequence against itself is empty

The following development proves that `find_longest_match` on two equal
line lists returns the full-width match, hence `unified_diff` yields no
lines, hence `generate_unified_diff` of identical texts is `""`. -/

namespace SelfDiff

theorem runLen_le (L : List String) (i : Nat) : runLen L i ≤ i + 1 := by
  induction i with
  | zero => unfold runLen; split <;> omega
  | succ i ih => unfold runLen; split <;> omega

theorem runLen_le_maxRun (L : List String) {j i : Nat} (h : j < i) :
    runLen L j ≤ maxRun L i := by
  induction i with
  | zero => omega
  | succ i ih =>
      rcases Nat.lt_succ_iff_lt_or_eq.mp h with h' | h'
      · calc runLen L j ≤ maxRun L i := ih h'
          _ ≤ maxRun L (i + 1) := Nat.le_max_left _ _
      · subst h'; exact Nat.le_max_right _ _

theorem runLen_of_pop {L : List String} {i : Nat}
    (h : isPopular L (L.getD i "") = true) : runLen L i = 0 := by
  cases i <;> simp only [runLen, h, if_true]

theorem runLen_pos {L : List String} {i : Nat}
    (h : isPopular L (L.getD i "") = false) : 1 ≤ runLen L i := by
  cases i <;> simp only [runLen, h, Bool.false_eq_true, if_false] <;> omega

theorem get?_self {L : List String} {i : Nat} (h : i < L.length) :
    L.get? i = some (L.getD i "") := by
  rw [List.getD_eq_getD_get?]
  rcases hh : L.get? i with _ | y
  · rw [List.get?_eq_none] at hh; omega
  · rfl

theorem getD_of_get? {L : List String} {j : Nat} {x : String}
    (h : L.get? j = some x) : L.getD j "" = x := by
  rw [List.getD_eq_getD_get?, h]; rfl

theorem mem_jsAt {L : List String} {i j : Nat} :
    j ∈ jsAt L L 0 L.length i ↔
      isPopular L (L.getD i "") = false ∧ j < L.length ∧
        L.get? j = some (L.getD i "") := by
  unfold jsAt b2j positionsOf
  by_cases hp : isPopular L (L.getD i "") = true
  · rw [if_pos hp]
    constructor
    · intro hmem; exact absurd hmem (by simp)
    · rintro ⟨h1, -⟩; rw [h1] at hp; cases hp
  · rw [Bool.not_eq_true] at hp
    rw [hp]
    simp only [Bool.false_eq_true, if_false, List.mem_filter, List.mem_range,
      Bool.and_eq_true, decide_eq_true_eq]
    constructor
    · rintro ⟨⟨hjr, hjx⟩, -, -⟩; exact ⟨trivial, hjr, hjx⟩
    · rintro ⟨-, hjn, hjx⟩; exact ⟨⟨hjn, hjx⟩, by omega, hjn⟩

theorem flmInner_no_update (i : Nat) (J : Nat → Nat) :
    ∀ (js : List Nat) (st : Nat × Nat × Nat),
      (∀ j ∈ js, (if j = 0 then 0 else J (j - 1)) + 1 ≤ st.2.2) →
      flmInner i J js st = st := by
  intro js
  induction js with
  | nil => intro st _; rfl
  | cons j js ih =>
      intro st h
      have hj := h j (by simp)
      simp only [flmInner]
      rw [if_neg (by omega)]
      exact ih st fun j' hj' => h j' (by simp [hj'])

theorem flmInner_append (i : Nat) (J : Nat → Nat) (l1 l2 : List Nat)
    (st : Nat × Nat × Nat) :
    flmInner i J (l1 ++ l2) st = flmInner i J l2 (flmInner i J l1 st) := by
  induction l1 generalizing st with
  | nil => rfl
  | cons j l1 ih => simp only [List.cons_append, flmInner]; exact ih _

theorem jsAt_of_pop {L : List String} {i : Nat}
    (hp : isPopular L (L.getD i "") = true) : jsAt L L 0 L.length i = [] := by
  unfold jsAt b2j
  rw [if_pos hp]
  rfl

theorem jsAt_of_nonpop {L : List String} {i : Nat}
    (hp : isPopular L (L.getD i "") = false) :
    jsAt L L 0 L.length i =
      (List.range L.length).filter fun j => decide (L.get? j = some (L.getD i "")) := by
  unfold jsAt b2j
  rw [hp]
  simp only [Bool.false_eq_true, if_false]
  apply List.filter_eq_self.mpr
  intro j hj
  have : j < L.length := by
    have := List.mem_filter.mp hj
    exact List.mem_range.mp this.1
  simp [this]

theorem range_split {n i : Nat} (h : i < n) :
    List.range n = List.range i ++ i :: List.range' (i + 1) (n - i - 1) := by
  obtain ⟨m, hm⟩ : ∃ m, n - i = m + 1 := ⟨n - i - 1, by omega⟩
  have h1 := List.range'_append 0 i (n - i) 1
  simp only [Nat.one_mul, Nat.zero_add] at h1
  have h2 : n - i + i = n := by omega
  rw [h2] at h1
  rw [List.range_eq_range', ← h1, hm, List.range'_succ, List.range_eq_range']
  rfl

theorem runLen_succ_nonpop {L : List String} {m : Nat}
    (h : isPopular L (L.getD (m + 1) "") = false) :
    runLen L (m + 1) = runLen L m + 1 := by
  simp only [runLen, h, Bool.false_eq_true, if_false]

theorem runLen_zero_nonpop {L : List String}
    (h : isPopular L (L.getD 0 "") = false) : runLen L 0 = 1 := by
  simp only [runLen, h, Bool.false_eq_true, if_false]

/-- Step `i` of the dictionary loop on equal sequences: starting from an
aligned best of size `maxRun L i`, it ends aligned with size
`max (maxRun L i) (runLen L i)`, the aligned update (if any) happening
at the diagonal position `j = i`. -/
theorem flmInner_diag (L : List String) (i : Nat) (hi : i < L.length)
    (J : Nat → Nat) (b0 : Nat)
    (hJ1 : ∀ j, J j ≤ runLen L j)
    (hJ2 : ∀ j, J j ≤ if i = 0 then 0 else runLen L (i - 1))
    (hJ3 : 1 ≤ i → J (i - 1) = runLen L (i - 1)) :
    flmInner i J (jsAt L L 0 L.length i) (b0, b0, maxRun L i) =
      if maxRun L i < runLen L i then
        (i + 1 - runLen L i, i + 1 - runLen L i, runLen L i)
      else (b0, b0, maxRun L i) := by
  by_cases hp : isPopular L (L.getD i "") = true
  · rw [jsAt_of_pop hp, runLen_of_pop hp, if_neg (by omega)]
    rfl
  · rw [Bool.not_eq_true] at hp
    have hgi : L.get? i = some (L.getD i "") := get?_self hi
    have hpi : (decide (L.get? i = some (L.getD i ""))) = true := by
      rw [hgi]; simp
    rw [jsAt_of_nonpop hp, range_split hi, List.filter_append]
    rw [List.filter_cons, if_pos hpi]
    rw [flmInner_append]
    have hA : flmInner i J ((List.range i).filter
        fun j => decide (L.get? j = some (L.getD i ""))) (b0, b0, maxRun L i) =
        (b0, b0, maxRun L i) := by
      apply flmInner_no_update
      intro j hj
      have hj' := List.mem_filter.mp hj
      have hjr : j < i := List.mem_range.mp hj'.1
      have hjx : L.get? j = some (L.getD i "") := of_decide_eq_true hj'.2
      have hnpj : isPopular L (L.getD j "") = false := by rw [getD_of_get? hjx]; exact hp
      have hrun : (if j = 0 then 0 else J (j - 1)) + 1 ≤ runLen L j := by
        cases j with
        | zero =>
            rw [if_pos rfl, runLen_zero_nonpop hnpj]
        | succ m =>
            rw [if_neg (Nat.succ_ne_zero m), runLen_succ_nonpop hnpj]
            simp only [Nat.add_sub_cancel]
            have := hJ1 m
            omega
      calc (if j = 0 then 0 else J (j - 1)) + 1 ≤ runLen L j := hrun
        _ ≤ maxRun L i := runLen_le_maxRun L hjr
    rw [hA]
    have hki : (if i = 0 then 0 else J (i - 1)) + 1 = runLen L i := by
      cases i with
      | zero => rw [if_pos rfl, runLen_zero_nonpop hp]
      | succ m =>
          rw [if_neg (Nat.succ_ne_zero m), hJ3 (by omega), runLen_succ_nonpop hp]
          simp only [Nat.add_sub_cancel]
    have hkC : ∀ j ∈ (List.range' (i + 1) (L.length - i - 1)).filter
        (fun j => decide (L.get? j = some (L.getD i ""))),
        (if j = 0 then 0 else J (j - 1)) + 1 ≤ runLen L i := by
      intro j hj
      have hj' := List.mem_filter.mp hj
      have hjr : i + 1 ≤ j := (List.mem_range'_1.mp hj'.1).1
      rw [if_neg (by omega)]
      cases i with
      | zero =>
          have h2 := hJ2 (j - 1)
          rw [if_pos rfl] at h2
          rw [runLen_zero_nonpop hp]
          omega
      | succ m =>
          have h2 := hJ2 (j - 1)
          rw [if_neg (Nat.succ_ne_zero m)] at h2
          simp only [Nat.add_sub_cancel] at h2
          rw [runLen_succ_nonpop hp]
          omega
    simp only [flmInner]
    rw [hki]
    by_cases hlt : maxRun L i < runLen L i
    · rw [if_pos hlt]
      apply flmInner_no_update
      intro j hj
      have h := hkC j hj
      show (if j = 0 then 0 else J (j - 1)) + 1 ≤ runLen L i
      exact h
    · rw [if_neg hlt]
      apply flmInner_no_update
      intro j hj
      have h := hkC j hj
      show (if j = 0 then 0 else J (j - 1)) + 1 ≤ maxRun L i
      omega

/-- The outer loop of `find_longest_match` on equal sequences keeps the
best aligned; it ends with size `maxRun L L.length` and base within
bounds. -/
theorem flmOuter_diag (L : List String) :
    ∀ (m i : Nat) (J : Nat → Nat) (b0 : Nat),
      i + m = L.length →
      (∀ j, J j ≤ runLen L j) →
      (∀ j, J j ≤ if i = 0 then 0 else runLen L (i - 1)) →
      (1 ≤ i → J (i - 1) = runLen L (i - 1)) →
      b0 + maxRun L i ≤ L.length →
      ∃ B, flmOuter L L 0 L.length (List.range' i m) J (b0, b0, maxRun L i) =
            (B, B, maxRun L L.length) ∧ B + maxRun L L.length ≤ L.length := by
  intro m
  induction m with
  | zero =>
      intro i J b0 hin hJ1 hJ2 hJ3 hble
      have : i = L.length := by omega
      subst this
      exact ⟨b0, rfl, hble⟩
  | succ m ih =>
      intro i J b0 hin hJ1 hJ2 hJ3 hble
      have hi : i < L.length := by omega
      rw [List.range'_succ]
      simp only [flmOuter]
      rw [flmInner_diag L i hi J b0 hJ1 hJ2 hJ3]
      have hJ1' : ∀ j, newJ L L 0 L.length i J j ≤ runLen L j := by
        intro j
        unfold newJ
        by_cases hj : j ∈ jsAt L L 0 L.length i
        · rw [if_pos hj]
          obtain ⟨hnpi, hjn, hjx⟩ := mem_jsAt.mp hj
          have hnpj : isPopular L (L.getD j "") = false := by
            rw [getD_of_get? hjx]; exact hnpi
          cases j with
          | zero => rw [if_pos rfl, runLen_zero_nonpop hnpj]
          | succ m' =>
              rw [if_neg (Nat.succ_ne_zero m'), runLen_succ_nonpop hnpj]
              simp only [Nat.add_sub_cancel]
              have := hJ1 m'
              omega
        · rw [if_neg hj]; omega
      have hJ2' : ∀ j, newJ L L 0 L.length i J j ≤
          if i + 1 = 0 then 0 else runLen L (i + 1 - 1) := by
        intro j
        rw [if_neg (Nat.succ_ne_zero i)]
        simp only [Nat.add_sub_cancel]
        unfold newJ
        by_cases hj : j ∈ jsAt L L 0 L.length i
        · rw [if_pos hj]
          obtain ⟨hnpi, hjn, hjx⟩ := mem_jsAt.mp hj
          have hri : 1 ≤ runLen L i := runLen_pos hnpi
          cases j with
          | zero => rw [if_pos rfl]; omega
          | succ m' =>
              rw [if_neg (Nat.succ_ne_zero m')]
              simp only [Nat.add_sub_cancel]
              have h2 := hJ2 m'
              cases i with
              | zero =>
                  rw [if_pos rfl] at h2
                  omega
              | succ k =>
                  rw [if_neg (Nat.succ_ne_zero k)] at h2
                  simp only [Nat.add_sub_cancel] at h2
                  rw [runLen_succ_nonpop hnpi]
                  omega
        · rw [if_neg hj]; omega
      have hJ3' : 1 ≤ i + 1 → newJ L L 0 L.length i J (i + 1 - 1) =
          runLen L (i + 1 - 1) := by
        intro _
        simp only [Nat.add_sub_cancel]
        unfold newJ
        by_cases hp : isPopular L (L.getD i "") = true
        · rw [if_neg]
          · rw [runLen_of_pop hp]
          · intro hmem
            obtain ⟨hnp, -, -⟩ := mem_jsAt.mp hmem
            rw [hp] at hnp
            cases hnp
        · rw [Bool.not_eq_true] at hp
          have hmem : i ∈ jsAt L L 0 L.length i :=
            mem_jsAt.mpr ⟨hp, hi, get?_self hi⟩
          rw [if_pos hmem]
          cases i with
          | zero => rw [if_pos rfl, runLen_zero_nonpop hp]
          | succ k =>
              rw [if_neg (Nat.succ_ne_zero k), hJ3 (by omega), runLen_succ_nonpop hp]
              simp only [Nat.add_sub_cancel]
      have hmax : maxRun L (i + 1) = max (maxRun L i) (runLen L i) := rfl
      by_cases hlt : maxRun L i < runLen L i
      · rw [if_pos hlt]
        have heq : runLen L i = maxRun L (i + 1) := by rw [hmax]; omega
        have hstep : (i + 1 - runLen L i, i + 1 - runLen L i, runLen L i) =
            (i + 1 - runLen L i, i + 1 - runLen L i, maxRun L (i + 1)) := by
          rw [← heq]
        rw [hstep]
        exact ih (i + 1) (newJ L L 0 L.length i J) (i + 1 - runLen L i)
          (by omega) hJ1' hJ2' hJ3'
          (by
            have := runLen_le L i
            rw [← heq]
            omega)
      · rw [if_neg hlt]
        have heq : maxRun L i = maxRun L (i + 1) := by rw [hmax]; omega
        rw [heq]
        exact ih (i + 1) (newJ L L 0 L.length i J) b0
          (by omega) hJ1' hJ2' hJ3' (by rw [← heq]; exact hble)

theorem extendLeft_succ (a b : List String) (alo blo f : Nat) (st : Nat × Nat × Nat) :
    extendLeft a b alo blo (f + 1) st =
      if alo < st.1 ∧ blo < st.2.1 ∧
         a.getD (st.1 - 1) "" = b.getD (st.2.1 - 1) "" then
        extendLeft a b alo blo f (st.1 - 1, st.2.1 - 1, st.2.2 + 1)
      else st := rfl

theorem extendRight_succ (a b : List String) (ahi bhi f : Nat) (st : Nat × Nat × Nat) :
    extendRight a b ahi bhi (f + 1) st =
      if st.1 + st.2.2 < ahi ∧ st.2.1 + st.2.2 < bhi ∧
         a.getD (st.1 + st.2.2) "" = b.getD (st.2.1 + st.2.2) "" then
        extendRight a b ahi bhi f (st.1, st.2.1, st.2.2 + 1)
      else st := rfl

theorem extendLeft_diag (L : List String) :
    ∀ (bi bs : Nat), extendLeft L L 0 0 bi (bi, bi, bs) = (0, 0, bs + bi) := by
  intro bi
  induction bi with
  | zero => intro bs; rfl
  | succ b ih =>
      intro bs
      rw [extendLeft_succ]
      rw [if_pos ⟨Nat.succ_pos b, Nat.succ_pos b, rfl⟩]
      show extendLeft L L 0 0 b (b, b, bs + 1) = (0, 0, bs + (b + 1))
      rw [ih (bs + 1)]
      have : bs + 1 + b = bs + (b + 1) := by omega
      rw [this]

theorem extendLeft_stop (a b : List String) (alo blo : Nat) (st : Nat × Nat × Nat)
    (h : ¬ (alo < st.1 ∧ blo < st.2.1 ∧
        a.getD (st.1 - 1) "" = b.getD (st.2.1 - 1) "")) :
    ∀ f, extendLeft a b alo blo f st = st := by
  intro f
  cases f with
  | zero => rfl
  | succ f => simp only [extendLeft]; rw [if_neg h]

theorem extendRight_stop (a b : List String) (ahi bhi : Nat) (st : Nat × Nat × Nat)
    (h : ¬ (st.1 + st.2.2 < ahi ∧ st.2.1 + st.2.2 < bhi ∧
        a.getD (st.1 + st.2.2) "" = b.getD (st.2.1 + st.2.2) "")) :
    ∀ f, extendRight a b ahi bhi f st = st := by
  intro f
  cases f with
  | zero => rfl
  | succ f => simp only [extendRight]; rw [if_neg h]

theorem extendRight_diag (L : List String) :
    ∀ (f s : Nat), s ≤ L.length → L.length ≤ s + f →
      extendRight L L L.length L.length f (0, 0, s) = (0, 0, L.length) := by
  intro f
  induction f with
  | zero =>
      intro s h1 h2
      have : s = L.length := by omega
      subst this
      rfl
  | succ f ih =>
      intro s h1 h2
      by_cases h : s < L.length
      · rw [extendRight_succ]
        rw [if_pos (show (0 : Nat) + s < L.length ∧ (0 : Nat) + s < L.length ∧
            L.getD (0 + s) "" = L.getD (0 + s) "" from ⟨by omega, by omega, rfl⟩)]
        show extendRight L L L.length L.length f (0, 0, s + 1) = (0, 0, L.length)
        exact ih (s + 1) (by omega) (by omega)
      · have hs : s = L.length := by omega
        subst hs
        apply extendRight_stop
        rintro ⟨hc, -⟩
        exact absurd hc (by simp)

/-- `find_longest_match` on two equal sequences returns the full-width
match `(0, 0, n)`. -/
theorem find_longest_match_self (L : List String) :
    find_longest_match L L 0 L.length 0 L.length = (0, 0, L.length) := by
  have hmr0 : maxRun L 0 = 0 := rfl
  obtain ⟨B, hB, hle⟩ := flmOuter_diag L L.length 0 (fun _ => 0) 0 (by omega)
    (fun j => Nat.zero_le _)
    (fun j => by rw [if_pos rfl])
    (fun h => absurd h (by omega))
    (by rw [hmr0]; omega)
  rw [hmr0] at hB
  unfold find_longest_match
  rw [Nat.sub_zero, hB]
  have h1 : (B, B, maxRun L L.length).1 = B := rfl
  rw [h1, extendLeft_diag L B (maxRun L L.length)]
  exact extendRight_diag L L.length (maxRun L L.length + B) (by omega) (by omega)

theorem find_longest_match_empty_interval (L : List String) (c : Nat) :
    find_longest_match L L c c c c = (c, c, 0) := by
  unfold find_longest_match
  rw [Nat.sub_self]
  have h0 : List.range' c 0 = [] := rfl
  rw [h0]
  simp only [flmOuter]
  rw [extendLeft_stop L L c c (c, c, 0) (by rintro ⟨h1, -⟩; omega)]
  rw [extendRight_stop L L c c (c, c, 0) (by rintro ⟨h1, -⟩; omega)]

theorem matchingBlocksAux_empty_interval (L : List String) (c : Nat) :
    ∀ f, matchingBlocksAux L L f c c c c = [] := by
  intro f
  cases f with
  | zero => rfl
  | succ f =>
      simp only [matchingBlocksAux]
      rw [find_longest_match_empty_interval]
      rw [if_pos rfl]

theorem collapseAux_nil (acc : Nat × Nat × Nat) :
    collapseAux acc [] = if acc.2.2 = 0 then [] else [acc] := rfl

theorem collapseAux_cons (acc blk : Nat × Nat × Nat) (rest : List (Nat × Nat × Nat)) :
    collapseAux acc (blk :: rest) =
      if acc.1 + acc.2.2 = blk.1 ∧ acc.2.1 + acc.2.2 = blk.2.1 then
        collapseAux (acc.1, acc.2.1, acc.2.2 + blk.2.2) rest
      else (if acc.2.2 = 0 then [] else [acc]) ++ collapseAux blk rest := rfl

/-- Matching blocks of two equal non-empty sequences: one full block
plus the sentinel. -/
theorem get_matching_blocks_self (L : List String) (h : L ≠ []) :
    get_matching_blocks L L = [(0, 0, L.length), (L.length, L.length, 0)] := by
  have hn : L.length ≠ 0 := by
    intro hh
    exact h (List.length_eq_zero.mp hh)
  unfold get_matching_blocks
  simp only [matchingBlocksAux]
  rw [find_longest_match_self]
  have hk : ((0, 0, L.length) : Nat × Nat × Nat).2.2 = L.length := rfl
  rw [hk, if_neg hn]
  have hz : (0 : Nat) + L.length = L.length := by omega
  simp only [hz]
  rw [matchingBlocksAux_empty_interval, matchingBlocksAux_empty_interval]
  simp only [List.nil_append]
  rw [collapseAux_cons, if_pos (⟨rfl, rfl⟩ :
    ((0, 0, 0) : Nat × Nat × Nat).1 + ((0, 0, 0) : Nat × Nat × Nat).2.2 = 0 ∧
    ((0, 0, 0) : Nat × Nat × Nat).2.1 + ((0, 0, 0) : Nat × Nat × Nat).2.2 = 0)]
  rw [collapseAux_nil, if_neg (show ¬((0 : Nat) + L.length = 0) from by omega)]
  simp

theorem get_opcodes_self (L : List String) (h : L ≠ []) :
    get_opcodes L L = [⟨DTag.equal, 0, L.length, 0, L.length⟩] := by
  have hn : L.length ≠ 0 := fun hh => h (List.length_eq_zero.mp hh)
  unfold get_opcodes
  rw [get_matching_blocks_self L h]
  simp [opcodesAux, hn]

theorem get_grouped_opcodes_self (L : List String) (h : L ≠ []) :
    get_grouped_opcodes L L = [] := by
  have e1 : max 0 (L.length - 3) = L.length - 3 := by omega
  have e2 : min L.length (L.length - 3 + 3) = L.length := by omega
  have e3 : ¬(6 < L.length - (L.length - 3)) := by omega
  unfold get_grouped_opcodes
  rw [get_opcodes_self L h]
  rw [if_neg (by simp)]
  simp [adjustHead, adjustTail, groupLoop, e1, e2, e3]

/-- `unified_diff` of a sequence against itself yields no lines. -/
theorem unified_diff_self (L : List String) (f g : String) :
    unified_diff L L f g = [] := by
  by_cases h : L = []
  · subst h; rfl
  · unfold unified_diff
    rw [get_grouped_opcodes_self L h]

end SelfDiff

/-- `generate_unified_diff` of a text against itself is the empty
string: `difflib` finds the full-width match, produces a single `equal`
opcode, and the grouping loop suppresses it. -/
theorem generate_unified_diff_self (t p : String) :
    generate_unified_diff (some t) (some t) p = "" := by
  show String.intercalate "\n"
      (unified_diff (pySplitlines t) (pySplitlines t) (p ++ " (old)") (p ++ " (new)")) = ""
  rw [SelfDiff.unified_diff_self]
  rfl

/-- `generate_unified_diff` returns `""` whenever the new text is
absent (`None`), regardless of the old text — the `None` guard at the
top of the function. -/
theorem generate_unified_diff_none_right (o : Option String) (p : String) :
    generate_unified_diff o none p = "" := by
  cases o <;> rfl

/-- `checkout` on a present, possibly empty, ref (definitional
unfolding of the `some` arm). -/
theorem checkout_some (w : WorldV2) (st : RepoStV2) (r : String) :
    checkout w st (some r) =
      if r = "" then (false, st, 0, 0)
      else if w.checkoutRefOk st.dest r st.fetched then
        (true, { st with current := r }, 0, 1)
      else if w.fetchOk st.dest then
        (if w.checkoutRefOk st.dest r true then
          (true, { st with current := r, fetched := true }, 1, 2)
        else (false, { st with fetched := true }, 1, 2))
      else (false, st, 1, 1) := rfl

/-! ### Helper lemmas about the per-file diff loop -/

theorem diffEntries_cons (pr : String × Option String)
    (rest newS : List (String × Option String)) :
    diffEntries (pr :: rest) newS =
      if pyStrip (generate_unified_diff pr.2 (Option.join (newS.lookup pr.1)) pr.1) = "" then
        diffEntries rest newS
      else
        (pr.1, generate_unified_diff pr.2 (Option.join (newS.lookup pr.1)) pr.1) ::
          diffEntries rest newS := rfl

/-- Every persisted entry's path comes from the old snapshot. -/
theorem diffEntries_key_mem (oldS newS : List (String × Option String)) :
    ∀ e ∈ diffEntries oldS newS, e.1 ∈ oldS.map Prod.fst := by
  induction oldS with
  | nil => intro e he; cases he
  | cons pr rest ih =>
      intro e he
      rw [diffEntries_cons] at he
      by_cases hc : pyStrip (generate_unified_diff pr.2
          (Option.join (newS.lookup pr.1)) pr.1) = ""
      · rw [if_pos hc] at he
        exact List.mem_cons.mpr (Or.inr (ih e he))
      · rw [if_neg hc] at he
        rcases List.mem_cons.mp he with h | h
        · rw [h]
          exact List.mem_cons.mpr (Or.inl rfl)
        · exact List.mem_cons.mpr (Or.inr (ih e h))

/-- A path absent from the old snapshot gets no persisted entry. -/
theorem diffEntries_countP_zero (oldS newS : List (String × Option String))
    (p : String) (h : p ∉ oldS.map Prod.fst) :
    (diffEntries oldS newS).countP (fun e => e.1 == p) = 0 := by
  rw [List.countP_eq_zero]
  intro e he
  have hk := diffEntries_key_mem oldS newS e he
  simp only [beq_iff_eq]
  intro hep
  rw [hep] at hk
  exact h hk

/-- Exact count of persisted entries for a path `p`, when the old
snapshot's keys are unique (as `dict` keys are): one iff `p` is an old
key and the generated diff has non-whitespace content. -/
theorem diffEntries_countP (oldS newS : List (String × Option String)) (p : String)
    (hnd : (oldS.map Prod.fst).Nodup) :
    (diffEntries oldS newS).countP (fun e => e.1 == p) =
      if p ∈ oldS.map Prod.fst ∧
         pyStrip (generate_unified_diff (Option.join (oldS.lookup p))
           (Option.join (newS.lookup p)) p) ≠ "" then 1 else 0 := by
  induction oldS with
  | nil => simp [diffEntries]
  | cons q rest ih =>
      obtain ⟨k, v⟩ := q
      rw [List.map_cons, List.nodup_cons] at hnd
      obtain ⟨hq, hrest⟩ := hnd
      rw [diffEntries_cons]
      by_cases hkp : k = p
      · subst hkp
        have hlk : List.lookup k (((k, v)) :: rest) = some v := by
          simp [List.lookup]
        have hjoin : Option.join (List.lookup k (((k, v)) :: rest)) = v := by
          rw [hlk]; rfl
        by_cases hc : pyStrip (generate_unified_diff v
            (Option.join (newS.lookup k)) k) = ""
        · rw [if_pos hc]
          rw [diffEntries_countP_zero rest newS k hq]
          rw [if_neg]
          rintro ⟨-, hne⟩
          apply hne
          rw [hjoin]
          exact hc
        · rw [if_neg hc]
          rw [List.countP_cons, diffEntries_countP_zero rest newS k hq]
          have hcond : k ∈ List.map Prod.fst ((k, v) :: rest) ∧
              pyStrip (generate_unified_diff (Option.join (List.lookup k ((k, v) :: rest)))
                (Option.join (List.lookup k newS)) k) ≠ "" := by
            constructor
            · rw [List.map_cons]
              exact List.mem_cons.mpr (Or.inl rfl)
            · rw [hjoin]
              exact hc
          rw [if_pos hcond]
          simp
      · have hlk : List.lookup p (((k, v)) :: rest) = List.lookup p rest := by
          simp only [List.lookup]
          rw [beq_false_of_ne fun hh => hkp hh.symm]
        rw [hlk]
        have hmem : (p ∈ List.map Prod.fst ((k, v) :: rest)) ↔
            p ∈ List.map Prod.fst rest := by
          rw [List.map_cons, List.mem_cons]
          constructor
          · rintro (h | h)
            · exact absurd h.symm hkp
            · exact h
          · exact Or.inr
        by_cases hc : pyStrip (generate_unified_diff v
            (Option.join (newS.lookup k)) k) = ""
        · rw [if_pos hc, ih hrest]
          exact if_congr (and_congr_left' hmem.symm) rfl rfl
        · rw [if_neg hc, List.countP_cons]
          have hbk : ((((k, generate_unified_diff v (Option.join (newS.lookup k)) k) :
              String × String).1 == p)) = false := by
            apply beq_false_of_ne
            exact hkp
          rw [hbk]
          simp only [Bool.false_eq_true, if_false, Nat.add_zero]
          rw [ih hrest]
          exact if_congr (and_congr_left' hmem.symm) rfl rfl

/-! ### Helper lemmas about the artifact naming scheme -/

theorem decodeName_cons_ne (c : Char) (l : List Char) (hc : c ≠ '_') :
    decodeName (c :: l) = c :: decodeName l := by
  rw [decodeName.eq_def]
  split
  · rename_i heq; cases heq
  · rename_i heq
    injection heq with h1 h2
    exact absurd h1 hc
  · rename_i heq
    injection heq with h1 h2
    rw [h1, h2]

theorem decodeName_uu (l : List Char) :
    decodeName ('_' :: '_' :: l) = '/' :: decodeName l := rfl

theorem decode_encode (cs tail : List Char) (h : ∀ c ∈ cs, c ≠ '_') :
    decodeName ((cs.flatMap fun c => if c = '/' then ['_', '_'] else [c]) ++ tail) =
      cs ++ decodeName tail := by
  induction cs with
  | nil => simp
  | cons c cs ih =>
      have hc : c ≠ '_' := h c (by simp)
      have ihh := ih fun c' hc' => h c' (by simp [hc'])
      by_cases hcs : c = '/'
      · subst hcs
        simp only [List.flatMap_cons, List.cons_append]
        simp only [if_true]
        rw [List.append_assoc]
        show decodeName ('_' :: '_' :: ((cs.flatMap fun c =>
            if c = '/' then ['_', '_'] else [c]) ++ tail)) = '/' :: (cs ++ decodeName tail)
        rw [decodeName_uu, ihh]
      · simp only [List.flatMap_cons, List.cons_append]
        rw [if_neg hcs, List.append_assoc]
        show decodeName (c :: ((cs.flatMap fun c =>
            if c = '/' then ['_', '_'] else [c]) ++ tail)) = c :: (cs ++ decodeName tail)
        rw [decodeName_cons_ne c _ hc, ihh]

/-! ### Claim theorems -/

/-- C1 counterexample: a file present in the old snapshot with
non-empty content and deleted in the new snapshot (the path has no
entry there) produces **no** diff artifact — the per-file loop persists
nothing, because `generate_unified_diff` returns `""` when the new text
is `None`; the claim's "a pure deletion still yields a non-empty diff"
is false on the code. -/
theorem C1_deletion_counterexample :
    List.lookup "a.py" ([] : List (String × Option String)) = none ∧
    "a.py" ∈ ([("a.py", (some "x\n" : Option String))].map Prod.fst) ∧
    diffEntries [("a.py", some "x\n")] [] = [] := by
  refine ⟨rfl, by simp, ?_⟩
  rfl

/-- C1 (amended): for every path of the old snapshot (whose keys are
unique, as `dict` keys are), exactly one diff artifact is persisted iff
the generated diff has non-whitespace content; a path deleted in the
new snapshot yields no artifact (the generator returns `""` when either
text is missing), and identical content yields no artifact. -/
theorem C1_artifact_iff (oldS newS : List (String × Option String)) (p : String)
    (hnd : (oldS.map Prod.fst).Nodup) :
    ((diffEntries oldS newS).countP (fun e => e.1 == p) =
      if p ∈ oldS.map Prod.fst ∧
         pyStrip (generate_unified_diff (Option.join (oldS.lookup p))
           (Option.join (newS.lookup p)) p) ≠ "" then 1 else 0) ∧
    (newS.lookup p = none →
      (diffEntries oldS newS).countP (fun e => e.1 == p) = 0) ∧
    (∀ t, Option.join (oldS.lookup p) = some t → Option.join (newS.lookup p) = some t →
      (diffEntries oldS newS).countP (fun e => e.1 == p) = 0) := by
  refine ⟨diffEntries_countP oldS newS p hnd, ?_, ?_⟩
  · intro h
    rw [diffEntries_countP oldS newS p hnd]
    rw [if_neg]
    rintro ⟨-, hne⟩
    apply hne
    rw [h]
    show pyStrip (generate_unified_diff (Option.join (oldS.lookup p)) none p) = ""
    rw [generate_unified_diff_none_right]
    rfl
  · intro t h1 h2
    rw [diffEntries_countP oldS newS p hnd]
    rw [if_neg]
    rintro ⟨-, hne⟩
    apply hne
    rw [h1, h2, generate_unified_diff_self]
    rfl

/-- Witness for `C1_artifact_iff` at a concrete snapshot pair. -/
theorem C1_artifact_iff_witness :
    (([("a.py", (some "x" : Option String))].map Prod.fst)).Nodup ∧
    (diffEntries [("a.py", (some "x" : Option String))]
        [("a.py", (some "y" : Option String))]).countP (fun e => e.1 == "a.py") =
      (if "a.py" ∈ ([("a.py", (some "x" : Option String))].map Prod.fst) ∧
          pyStrip (generate_unified_diff
            (Option.join (([("a.py", (some "x" : Option String))]).lookup "a.py"))
            (Option.join (([("a.py", (some "y" : Option String))]).lookup "a.py"))
            "a.py") ≠ "" then 1 else 0) :=
  ⟨by decide,
   (C1_artifact_iff [("a.py", some "x")] [("a.py", some "y")] "a.py" (by decide)).1⟩

/-- C2: an advisory whose clone fails is logged (`[ERROR] Failed to
clone …`), contributes no result row, no diff artifacts and no prompt
files; the loop continues with the remaining advisories unchanged, and
the run's exit status is 0 whenever the remaining advisories complete
(a clone failure itself never raises out of the loop). -/
theorem C2_clone_failure_skips (w : WorldV2) (root : String) (a : AdvisoryV2)
    (rest : List AdvisoryV2)
    (h1 : optFalsy a.source_code_location = false)
    (h2 : clone_fails_for w root a) :
    process_one w root a = Except.ok
      { logs := [LogV2.errorClone (optStr a.source_code_location)],
        row := none, diffFiles := [], promptFiles := [] } ∧
    (process_json w root (a :: rest) =
      (process_json w root rest).map fun os =>
        ({ logs := [LogV2.errorClone (optStr a.source_code_location)],
           row := none, diffFiles := [], promptFiles := [] } : AdvOutcome) :: os) ∧
    (∀ os, process_json w root rest = Except.ok os →
      (run_v2 w ["prog", "in.json", root] (a :: rest)).2 = 0) := by
  have hone : process_one w root a = Except.ok
      { logs := [LogV2.errorClone (optStr a.source_code_location)],
        row := none, diffFiles := [], promptFiles := [] } := by
    unfold process_one
    rw [h1]
    simp only [Bool.false_eq_true, if_false]
    have hcf : (clone_or_fetch w (optStr a.source_code_location)
        (advisoryDest root a)).1 = Except.error (optStr a.source_code_location) := by
      unfold clone_or_fetch
      rw [h2.1]
      simp only [Bool.false_eq_true, if_false]
      rw [h2.2]
      simp only [Bool.false_eq_true, if_false]
    rw [hcf]
  have hcons : process_json w root (a :: rest) =
      (process_json w root rest).map fun os =>
        ({ logs := [LogV2.errorClone (optStr a.source_code_location)],
           row := none, diffFiles := [], promptFiles := [] } : AdvOutcome) :: os := by
    have h0 : process_json w root (a :: rest) =
        (process_one w root a).bind fun o =>
          (process_json w root rest).map fun os => o :: os := rfl
    rw [h0, hone]
    rfl
  refine ⟨hone, hcons, ?_⟩
  intro os h
  unfold run_v2
  rw [if_neg (show ¬((["prog", "in.json", root] : List String).length < 3) from by
    simp)]
  have hargs : (["prog", "in.json", root] : List String).getD 2 "" = root := rfl
  rw [hargs, hcons, h]
  rfl

/-- Witness for `C2_clone_failure_skips` at a concrete environment. -/
theorem C2_clone_failure_skips_witness :
    optFalsy advOk.source_code_location = false ∧
    process_one wCloneFails "out" advOk = Except.ok
      { logs := [LogV2.errorClone (optStr advOk.source_code_location)],
        row := none, diffFiles := [], promptFiles := [] } :=
  ⟨by decide, (C2_clone_failure_skips wCloneFails "out" advOk [] (by decide)
    ⟨rfl, rfl⟩).1⟩

/-- C3: when the destination already holds a checkout (`.git` exists),
both `clone_or_fetch` and `ensure_repo_cloned` never clone (clone count
0), perform exactly one fetch attempt, and return the opened repository
even when that fetch fails — the result is `ok` for every value of
`w.fetchOk`. -/
theorem C3_reuse_existing_checkout (w : WorldV2) (url dest : String)
    (h1 : w.destExists dest = true) (h2 : w.destGitDir dest = true) :
    clone_or_fetch w url dest =
      (Except.ok ⟨dest, w.initRef dest, w.fetchOk dest⟩, 0, 1) ∧
    ensure_repo_cloned w url dest =
      (Except.ok ⟨dest, w.initRef dest, w.fetchOk dest⟩, 0, 1) := by
  constructor
  · unfold clone_or_fetch
    rw [h1, h2]
    rfl
  · unfold ensure_repo_cloned
    rw [h1, h2]
    rfl

/-- Witness for `C3_reuse_existing_checkout` at a concrete environment
(whose fetch fails, exercising the non-fatal path). -/
theorem C3_reuse_existing_checkout_witness :
    wHasGit.destExists "d" = true ∧
    clone_or_fetch wHasGit "u" "d" = (Except.ok ⟨"d", "HEAD", false⟩, 0, 1) ∧
    ensure_repo_cloned wHasGit "u" "d" = (Except.ok ⟨"d", "HEAD", false⟩, 0, 1) :=
  ⟨rfl, (C3_reuse_existing_checkout wHasGit "u" "d" rfl rfl).1,
    (C3_reuse_existing_checkout wHasGit "u" "d" rfl rfl).2⟩

/-- C4 counterexample: the naming scheme is not collision-free — the
distinct repository-relative paths `"a/b"` and `"a__b"` derive the same
artifact name `"a__b.diff"`. -/
theorem C4_collision_counterexample :
    diff_artifact_name "a/b" = diff_artifact_name "a__b" ∧
    ("a/b" : String) ≠ "a__b" := by
  exact ⟨rfl, by decide⟩

/-- C4 (amended): the naming scheme is deterministic (it is a pure
function of the path), and it is collision-free on paths that contain
no underscore: two such paths with equal artifact names are equal. -/
theorem C4_name_injective_no_underscore (p q : String)
    (hp : '_' ∉ p.toList) (hq : '_' ∉ q.toList)
    (h : diff_artifact_name p = diff_artifact_name q) : p = q := by
  have hp' : ∀ c ∈ p.toList, c ≠ '_' := fun c hc he => hp (he ▸ hc)
  have hq' : ∀ c ∈ q.toList, c ≠ '_' := fun c hc he => hq (he ▸ hc)
  have h1 : (pyReplaceSlash p).toList ++ (".diff" : String).toList =
      (pyReplaceSlash q).toList ++ (".diff" : String).toList := by
    have h0 := congrArg String.toList h
    unfold diff_artifact_name at h0
    simpa [String.toList, String.data_append] using h0
  have h2 : (p.toList.flatMap fun c => if c = '/' then ['_', '_'] else [c]) ++
      (".diff" : String).toList =
      (q.toList.flatMap fun c => if c = '/' then ['_', '_'] else [c]) ++
      (".diff" : String).toList := h1
  have h3 := congrArg decodeName h2
  rw [decode_encode _ _ hp', decode_encode _ _ hq'] at h3
  have h4 : p.toList = q.toList := List.append_cancel_right h3
  exact congrArg String.mk h4

/-- Witness for `C4_name_injective_no_underscore`. -/
theorem C4_name_injective_no_underscore_witness :
    ('_' ∉ ("a/b" : String).toList) ∧ ("a/b" : String) = "a/b" :=
  ⟨by decide, C4_name_injective_no_underscore "a/b" "a/b" (by decide) (by decide) rfl⟩

/-- C6 counterexample: when the first checkout of a ref fails **and the
fetch itself fails**, `checkout` of `v2/main.py` declares failure after
one fetch attempt and only **one** checkout attempt — no retry is
performed, contradicting "exactly one fetch followed by one retry". -/
theorem C6_no_retry_counterexample :
    (checkout wFetchFails ⟨"d", "HEAD", false⟩ (some "v1")).1 = false ∧
    (checkout wFetchFails ⟨"d", "HEAD", false⟩ (some "v1")).2.2.1 = 1 ∧
    (checkout wFetchFails ⟨"d", "HEAD", false⟩ (some "v1")).2.2.2 = 1 := by
  refine ⟨rfl, rfl, rfl⟩

/-- C6 (amended): when the first checkout of a non-empty ref fails,
`checkout` performs one fetch and, only if the fetch succeeds, one
retry (two checkout attempts in total, the result being the retry's
outcome); if the fetch fails, failure is declared with no retry.
`checkout_ref` of `helpers.py` follows the same one-fetch policy but
surfaces the failure to its caller as an exception.  A failed checkout
never aborts the pipeline: the advisory loop processes each record
independently. -/
theorem C6_fetch_retry_policy (w : WorldV2) (st : RepoStV2) (r : String)
    (hr : ¬ r = "")
    (hfail : w.checkoutRefOk st.dest r st.fetched = false) :
    (w.fetchOk st.dest = true →
      (checkout w st (some r)).2.2 = (1, 2) ∧
      (checkout w st (some r)).1 = w.checkoutRefOk st.dest r true) ∧
    (w.fetchOk st.dest = false →
      checkout w st (some r) = (false, st, 1, 1)) ∧
    (w.fetchOk st.dest = true → (checkout_ref w st r).2 = (1, 2)) ∧
    (w.fetchOk st.dest = false →
      checkout_ref w st r = (Except.error (), 1, 1)) ∧
    (∀ root a rest, process_json w root (a :: rest) =
      (process_one w root a).bind fun o =>
        (process_json w root rest).map fun os => o :: os) := by
  refine ⟨?_, ?_, ?_, ?_, fun _ _ _ => rfl⟩
  · intro hf
    rw [checkout_some, if_neg hr, hfail, hf]
    by_cases hretry : w.checkoutRefOk st.dest r true = true
    · rw [hretry]
      exact ⟨rfl, rfl⟩
    · rw [Bool.not_eq_true] at hretry
      rw [hretry]
      exact ⟨rfl, rfl⟩
  · intro hf
    rw [checkout_some, if_neg hr, hfail, hf]
    rfl
  · intro hf
    unfold checkout_ref
    rw [hfail, hf]
    by_cases hretry : w.checkoutRefOk st.dest r true = true
    · rw [hretry]
      rfl
    · rw [Bool.not_eq_true] at hretry
      rw [hretry]
      rfl
  · intro hf
    unfold checkout_ref
    rw [hfail, hf]
    rfl

/-- Witness for `C6_fetch_retry_policy` at a concrete environment. -/
theorem C6_fetch_retry_policy_witness :
    (¬ ("v1" : String) = "") ∧
    (checkout wRetryOk ⟨"d", "HEAD", false⟩ (some "v1")).2.2 = (1, 2) :=
  ⟨by decide,
   ((C6_fetch_retry_policy wRetryOk ⟨"d", "HEAD", false⟩ "v1" (by decide) rfl).1 rfl).1⟩

/-- C7 counterexample: a record with a missing identifier but a present
repository URL and a working repository is **not** "skipped with a log
message" — `process_json` validates only the URL, so the record
proceeds past clone and checkout and then the whole run crashes with an
uncaught `TypeError` (`output_root / "diffs" / None`, line 173): the
per-advisory processing ends in the propagated exception and the run's
exit status is non-zero, not the claimed skip-and-continue. -/
theorem C7_missing_id_counterexample :
    advNoId.ghsa_id = none ∧
    process_one wAllOk "out" advNoId = Except.error () ∧
    (run_v2 wAllOk ["prog", "in.json", "out"] [advNoId]).2 = 1 := by
  exact ⟨rfl, rfl, rfl⟩

/-- C7 (amended): only the repository URL is validated: a record whose
URL is empty or missing is skipped with a `[SKIP]` log, contributing no
row, no diff artifacts and no prompt files.  The identifier is not
validated: with a present URL and a working clone, a record whose
identifier is missing (`None`) crashes the run with an uncaught
`TypeError` while building the diffs directory path (no row, no
artifacts, and the loop aborts), and a record with a present identifier
(even the empty string) is processed and yields a result row. -/
theorem C7_url_only_validation (w : WorldV2) (root : String) (a : AdvisoryV2) :
    (optFalsy a.source_code_location = true →
      process_one w root a = Except.ok
        { logs := [LogV2.skipNoUrl a.ghsa_id], row := none,
          diffFiles := [], promptFiles := [] }) ∧
    (optFalsy a.source_code_location = false → clone_ok_for w root a →
      a.ghsa_id = none → process_one w root a = Except.error ()) ∧
    (∀ g, optFalsy a.source_code_location = false → clone_ok_for w root a →
      a.ghsa_id = some g →
      ∃ o, process_one w root a = Except.ok o ∧ o.row.isSome = true) := by
  refine ⟨?_, ?_, ?_⟩
  · intro h
    unfold process_one
    rw [h]
    simp only [if_true]
  · intro h1 h2 hg
    obtain ⟨st, hst⟩ := h2
    unfold process_one
    rw [h1]
    simp only [Bool.false_eq_true, if_false]
    rw [hst, hg]
  · intro g h1 h2 hg
    obtain ⟨st, hst⟩ := h2
    unfold process_one
    rw [h1]
    simp only [Bool.false_eq_true, if_false]
    rw [hst, hg]
    exact ⟨_, rfl, rfl⟩

/-- Witness for `C7_url_only_validation` (the skip direction). -/
theorem C7_url_only_validation_witness :
    optFalsy advNoUrl.source_code_location = true ∧
    process_one wAllOk "out" advNoUrl = Except.ok
      { logs := [LogV2.skipNoUrl (some "GHSA-2")], row := none,
        diffFiles := [], promptFiles := [] } :=
  ⟨rfl, (C7_url_only_validation wAllOk "out" advNoUrl).1 rfl⟩

/-- C8: diff generation is deterministic — `generate_unified_diff` is a
pure function of the old text, the new text and the file path, so two
invocations on equal inputs produce byte-identical output. -/
theorem C8_diff_deterministic (o1 o2 n1 n2 : Option String) (p1 p2 : String)
    (ho : o1 = o2) (hn : n1 = n2) (hp : p1 = p2) :
    generate_unified_diff o1 n1 p1 = generate_unified_diff o2 n2 p2 := by
  rw [ho, hn, hp]

/-- Witness for `C8_diff_deterministic`. -/
theorem C8_diff_deterministic_witness :
    generate_unified_diff (some "a") (some "b") "f" =
      generate_unified_diff (some "a") (some "b") "f" :=
  C8_diff_deterministic (some "a") (some "a") (some "b") (some "b") "f" "f" rfl rfl rfl

/-- C9: the diff loop iterates exclusively over the old snapshot's
paths — every persisted entry's path is an old-snapshot key, and a path
present only in the new snapshot (an added file) gets no artifact. -/
theorem C9_added_files_not_diffed (oldS newS : List (String × Option String)) :
    (∀ e ∈ diffEntries oldS newS, e.1 ∈ oldS.map Prod.fst) ∧
    (∀ p, p ∉ oldS.map Prod.fst →
      (diffEntries oldS newS).countP (fun e => e.1 == p) = 0) :=
  ⟨diffEntries_key_mem oldS newS,
   fun p hp => diffEntries_countP_zero oldS newS p hp⟩

/-- Witness for `C9_added_files_not_diffed`: a path only in the new
snapshot gets no artifact. -/
theorem C9_added_files_not_diffed_witness :
    ("new.py" ∉ ([("a.py", (some "x" : Option String))].map Prod.fst)) ∧
    (diffEntries [("a.py", (some "x" : Option String))]
      [("a.py", some "x"), ("new.py", some "z")]).countP
        (fun e => e.1 == "new.py") = 0 :=
  ⟨by decide,
   (C9_added_files_not_diffed [("a.py", some "x")]
     [("a.py", some "x"), ("new.py", some "z")]).2 "new.py" (by decide)⟩

/-- C10: in the CSV pipeline, when the `vuln_old..patched_new` changed
list is empty the pipeline uses the `patched_old..patched_new` list
instead, and `list_changed_files` converts any error of the underlying
`git diff --name-only` into the empty list. -/
theorem C10_changed_files_fallback (w : WorldCSV)
    (vuln_old patched_old patched_new : String) :
    (list_changed_files w vuln_old patched_new = [] →
      changed_files_for w vuln_old patched_old patched_new =
        list_changed_files w patched_old patched_new) ∧
    (∀ o n err, w.gitDiffNameOnly o n = Except.error err →
      list_changed_files w o n = []) := by
  constructor
  · intro h
    unfold changed_files_for
    rw [if_pos h]
  · intro o n err h
    unfold list_changed_files
    rw [h]

/-- Witness for `C10_changed_files_fallback`. -/
theorem C10_changed_files_fallback_witness :
    list_changed_files wCSVTest "v1" "v2" = [] ∧
    changed_files_for wCSVTest "v1" "p0" "v2" =
      list_changed_files wCSVTest "p0" "v2" :=
  ⟨rfl, (C10_changed_files_fallback wCSVTest "v1" "p0" "v2").1 rfl⟩
